import Mathlib

/-!
Verification development for the Agentic Insurance Claim Assistant.

Shallow embedding of the repository's Python code:
  - `src/tools/denial_codes.py` (knowledge-store lookup and denial-code analysis),
  - `src/tools/pdf_parser.py`   (structured claim-field extraction),
  - `src/crew.py`               (six-stage analysis pipeline definition),
  - `src/app.py`                (letter/guidance split, API-key gate).
Python dictionaries are modelled as association lists, Python values as the
inductive `PyVal` with Python truthiness, and external collaborators (the
regex engine, the LLM client, `json.loads`) as explicit oracle parameters.
-/

namespace ClaimAssistant

/-! ## Python-value primitives -/

/-- A Python value as it occurs in the embedded dictionaries. -/
inductive PyVal where
  | vnone
  | vstr (s : String)
  | vint (n : Int)
  | vlist (xs : List PyVal)
  | vdict (kvs : List (String × PyVal))

/-- Python truthiness of a `PyVal` (`bool(v)`). -/
def PyVal.truthy : PyVal → Bool
  | .vnone => false
  | .vstr s => s ≠ ""
  | .vint n => n ≠ 0
  | .vlist xs => !xs.isEmpty
  | .vdict kvs => !kvs.isEmpty

/-- Whether a `PyVal` is a Python list (`isinstance(v, list)`). -/
def PyVal.isList : PyVal → Bool
  | .vlist _ => true
  | _ => false

/-- Association-list lookup, modelling `d.get(k)` / `d[k]` on a Python dict
(first binding wins; Python dicts cannot hold duplicate keys). -/
def lookupA {α : Type} (kvs : List (String × α)) (k : String) : Option α :=
  match kvs with
  | [] => none
  | (k', v) :: rest => if k' = k then some v else lookupA rest k

/-- Association-list update, modelling `d[k] = v` on a Python dict: replaces
the first binding of `k`, or appends a new binding if `k` is absent. -/
def setA {α : Type} (kvs : List (String × α)) (k : String) (v : α) : List (String × α) :=
  match kvs with
  | [] => [(k, v)]
  | (k', v') :: rest => if k' = k then (k, v) :: rest else (k', v') :: setA rest k v

/-- Lower-to-upper ASCII letter table; models the effect of Python `str.upper`
on the character sets that occur in denial codes. -/
def upperMap : List (Char × Char) :=
  [('a', 'A'), ('b', 'B'), ('c', 'C'), ('d', 'D'), ('e', 'E'), ('f', 'F'),
   ('g', 'G'), ('h', 'H'), ('i', 'I'), ('j', 'J'), ('k', 'K'), ('l', 'L'),
   ('m', 'M'), ('n', 'N'), ('o', 'O'), ('p', 'P'), ('q', 'Q'), ('r', 'R'),
   ('s', 'S'), ('t', 'T'), ('u', 'U'), ('v', 'V'), ('w', 'W'), ('x', 'X'),
   ('y', 'Y'), ('z', 'Z')]

/-- Upper-to-lower ASCII letter table (Python `str.lower`). -/
def lowerMap : List (Char × Char) := upperMap.map (fun p => (p.2, p.1))

/-- Uppercase one character (`str.upper`, character-wise). -/
def charUpper (c : Char) : Char := (upperMap.lookup c).getD c

/-- Lowercase one character (`str.lower`, character-wise). -/
def charLower (c : Char) : Char := (lowerMap.lookup c).getD c

/-- Models `s.upper()`. -/
def pyUpper (s : String) : String := String.mk (s.toList.map charUpper)

/-- Models `s.lower()`. -/
def pyLower (s : String) : String := String.mk (s.toList.map charLower)

/-- The whitespace characters stripped by Python `str.strip()` (ASCII part). -/
def isPySpace (c : Char) : Bool :=
  c = ' ' ∨ c = '\t' ∨ c = '\n' ∨ c = '\r' ∨ c = '\x0b' ∨ c = '\x0c'

/-- Models `strip()` on a character list: drop whitespace from both ends. -/
def pyStripList (l : List Char) : List Char :=
  ((l.dropWhile isPySpace).reverse.dropWhile isPySpace).reverse

/-- Models `s.strip()`. -/
def pyStrip (s : String) : String := String.mk (pyStripList s.toList)

/-- Models `s[:n]` on a Python string. -/
def pyTake (n : Nat) (s : String) : String := String.mk (s.toList.take n)

/-- Substring test on character lists (`sub in s` for Python strings). -/
def listContainsSub (sub : List Char) : List Char → Bool
  | [] => sub.isEmpty
  | c :: rest => sub.isPrefixOf (c :: rest) || listContainsSub sub rest

/-- Models `sub in s` for Python strings. -/
def pyIn (sub s : String) : Bool := listContainsSub sub.toList s.toList

/-- Models `s.split(sep, 1)` at the first occurrence of `sep`: `some (before, after)`
when `sep` occurs in `s`, `none` otherwise (character-list version). -/
def splitOnceList (sep : List Char) : List Char → Option (List Char × List Char)
  | [] => if sep.isEmpty then some ([], []) else none
  | c :: rest =>
    if sep.isPrefixOf (c :: rest) then some ([], (c :: rest).drop sep.length)
    else match splitOnceList sep rest with
      | some (pre, post) => some (c :: pre, post)
      | none => none

/-- Models `s.split(sep, 1)` on strings. -/
def splitOnce (s sep : String) : Option (String × String) :=
  match splitOnceList sep.toList s.toList with
  | some (pre, post) => some (String.mk pre, String.mk post)
  | none => none

/-! ## Knowledge store and denial-code analysis (`src/tools/denial_codes.py`)

The backing file `knowledge/denial_codes.json` is not part of the source;
its record schema is modelled from the spec (§2, §4.1: code → description,
category, success-rate tag, common causes, appeal grounds; category →
member codes, common appeal strategies). The lookup and analysis algorithms
below are translated from `denial_codes.py`. -/

/-- Modelled from the spec: one entry of the code → metadata table of the
knowledge store (the backing JSON file is not under `src/`). -/
structure CodeRecord where
  description : String
  category : String
  success_rate : String
  common_causes : List String
  appeal_grounds : List String
deriving DecidableEq, Repr

/-- Modelled from the spec: one entry of the category table of the knowledge
store (the backing JSON file is not under `src/`). -/
structure CategoryRecord where
  codes : List String
  common_appeal_strategies : List String
deriving DecidableEq, Repr

/-- The loaded knowledge data (`load_denial_codes()`): a JSON mapping that may
carry the current table keys (`rejection_codes`, `rejection_categories`),
the legacy ones (`denial_codes`, `denial_categories`), both, or neither.
`none` models an absent key, `some []` a key mapping to an empty table. -/
structure KnowledgeData where
  rejection_codes : Option (List (String × CodeRecord))
  denial_codes : Option (List (String × CodeRecord))
  rejection_categories : Option (List (String × CategoryRecord))
  denial_categories : Option (List (String × CategoryRecord))

/-- The cache value `load_denial_codes` installs when the backing file is
missing: `{"rejection_codes": {}, "rejection_categories": {}}`. -/
def missingFileData : KnowledgeData :=
  { rejection_codes := some []
    denial_codes := none
    rejection_categories := some []
    denial_categories := none }

/-- Models `data.get("rejection_codes", {}) or data.get("denial_codes", {})`:
Python `or` takes the second operand when the first is falsy (an empty dict),
whether the current key is absent or present-but-empty. -/
def effectiveCodes (data : KnowledgeData) : List (String × CodeRecord) :=
  let a := data.rejection_codes.getD []
  if a.isEmpty then data.denial_codes.getD [] else a

/-- Models `data.get("rejection_categories", {}) or data.get("denial_categories", {})`. -/
def effectiveCategories (data : KnowledgeData) : List (String × CategoryRecord) :=
  let a := data.rejection_categories.getD []
  if a.isEmpty then data.denial_categories.getD [] else a

/-- Models `lookup_denial_code(code)`: key the effective table by
`code.upper().strip()`. -/
def lookup_denial_code (data : KnowledgeData) (code : String) : Option CodeRecord :=
  lookupA (effectiveCodes data) (pyStrip (pyUpper code))

/-- The `for category_name, category_info in categories.items()` loop of
`get_denial_category`: first category whose `codes` list holds the key. -/
def findCategory (code_upper : String) :
    List (String × CategoryRecord) → Option (String × CategoryRecord)
  | [] => none
  | (name, info) :: rest =>
    if code_upper ∈ info.codes then some (name, info) else findCategory code_upper rest

/-- Models `get_denial_category(code)`; the result pairs the category name with the
category record, modelling the returned `{"category_name": name, **info}`. -/
def get_denial_category (data : KnowledgeData) (code : String) :
    Option (String × CategoryRecord) :=
  findCategory (pyStrip (pyUpper code)) (effectiveCategories data)

/-- Models `get_appeal_strategies(code)`: code-specific appeal grounds, then the
category's common strategies, deduplicated. `List.eraseDups` models
`list(set(...))` (the spec treats the result as a set; Python leaves the
element order of `list(set(...))` unspecified). -/
def get_appeal_strategies (data : KnowledgeData) (code : String) : List String :=
  let s1 := match lookup_denial_code data code with
    | some info => info.appeal_grounds
    | none => []
  let s2 := match get_denial_category data code with
    | some cat => cat.2.common_appeal_strategies
    | none => []
  (s1 ++ s2).eraseDups

/-- The per-code accumulations of the `for code in codes` loop of
`analyze_denial_codes`. -/
structure LoopOut where
  codes_found : List (String × CodeRecord)
  codes_unknown : List String
  categories : List String
  success_rates : List String
  all_strategies : List String

/-- The `for code in codes` loop of `analyze_denial_codes`, preserving the
left-to-right append order of the source. -/
def analyzeLoop (data : KnowledgeData) : List String → LoopOut
  | [] => ⟨[], [], [], [], []⟩
  | c :: rest =>
    let out := analyzeLoop data rest
    match lookup_denial_code data c with
    | some info =>
      { codes_found := (c, info) :: out.codes_found
        codes_unknown := out.codes_unknown
        categories :=
          match get_denial_category data c with
          | some cat => cat.1 :: out.categories
          | none => out.categories
        success_rates := info.success_rate :: out.success_rates
        all_strategies := get_appeal_strategies data c ++ out.all_strategies }
    | none => { out with codes_unknown := c :: out.codes_unknown }

/-- Models `Counter(categories).most_common(1)[0][0]`: the most frequent element,
ties broken by first encounter (Python `Counter` keeps insertion order and
`most_common` sorts stably by count). -/
def mostCommon (l : List String) : Option String :=
  l.eraseDups.foldl
    (fun best x =>
      match best with
      | none => some x
      | some b => if l.count x > l.count b then some x else best)
    none

/-- The result record of `analyze_denial_codes`. -/
structure Analysis where
  codes_found : List (String × CodeRecord)
  codes_unknown : List String
  primary_category : Option String
  all_strategies : List String
  overall_appeal_likelihood : String
  summary : String

/-- Models `analyze_denial_codes(codes)` translated from the source. -/
def analyze_denial_codes (data : KnowledgeData) (codes : List String) : Analysis :=
  let out := analyzeLoop data codes
  let primary := if out.categories.isEmpty then none else mostCommon out.categories
  let likelihood :=
    if out.success_rates.isEmpty then "Unknown"
    else if "High" ∈ out.success_rates then "Good"
    else if "Medium" ∈ out.success_rates then "Moderate"
    else "Challenging"
  let strategies := out.all_strategies.eraseDups
  let summary :=
    match out.codes_found with
    | [] => ""
    | primaryItem :: _ =>
      "Primary denial reason: " ++ primaryItem.2.description ++
      ". Appeal likelihood: " ++ likelihood ++
      ". Found " ++ toString strategies.length ++ " potential appeal strategies."
  { codes_found := out.codes_found
    codes_unknown := out.codes_unknown
    primary_category := primary
    all_strategies := strategies
    overall_appeal_likelihood := likelihood
    summary := summary }

/-- Models `"=" * 60`. -/
def eqLine : String := String.mk (List.replicate 60 '=')

/-- Models `"-" * 60`. -/
def dashLine : String := String.mk (List.replicate 60 '-')

/-- The per-found-code lines of `format_denial_analysis_report`. -/
def reportCodeLines (item : String × CodeRecord) : List String :=
  ["Code: " ++ item.1,
   "Category: " ++ item.2.category,
   "Description: " ++ item.2.description,
   "Success Rate: " ++ item.2.success_rate,
   "Common Causes: " ++ String.intercalate ", " item.2.common_causes,
   ""]

/-- Models `f"  {i}. {strategy}"` lines produced by `enumerate(..., 1)`. -/
def numberLines (start : Nat) : List String → List String
  | [] => []
  | s :: rest => ("  " ++ toString start ++ ". " ++ s) :: numberLines (start + 1) rest

/-- Models `format_denial_analysis_report(analysis)` translated from the source. -/
def format_denial_analysis_report (analysis : Analysis) : String :=
  let lines := [eqLine, "DENIAL CODE ANALYSIS", eqLine, ""]
  let lines := lines ++ (analysis.codes_found.map reportCodeLines).flatten
  let lines := lines ++
    (if analysis.codes_unknown.isEmpty then []
     else ["Unknown Codes: " ++ String.intercalate ", " analysis.codes_unknown, ""])
  let lines := lines ++
    [dashLine, "Overall Appeal Likelihood: " ++ analysis.overall_appeal_likelihood, ""]
  let lines := lines ++
    (if analysis.all_strategies.isEmpty then []
     else "RECOMMENDED APPEAL STRATEGIES:" :: numberLines 1 analysis.all_strategies)
  let lines := lines ++ [eqLine]
  String.intercalate "\n" lines

/-- Modelled from the spec: the knowledge table used by the round-trip
scenario — `knowledge/denial_codes.json` is not under `src/`; per the spec,
`PED-001` carries success-rate `High` and `PA-001` carries `Medium`, and
`UNKNOWN-999` has no entry. -/
def specKnowledge : KnowledgeData :=
  { rejection_codes := some
      [("PED-001",
        { description := "Pre-existing disease waiting period not completed"
          category := "Pre-existing Disease"
          success_rate := "High"
          common_causes := ["Condition deemed pre-existing"]
          appeal_grounds := ["Condition was not pre-existing at policy inception"] }),
       ("PA-001",
        { description := "Pre-authorization not obtained"
          category := "Prior Authorization"
          success_rate := "Medium"
          common_causes := ["Emergency admission without pre-auth"]
          appeal_grounds := ["Emergency admission exemption applies"] })]
    denial_codes := none
    rejection_categories := some []
    denial_categories := none }

/-! ## Field extraction (`src/tools/pdf_parser.py`)

External collaborators — the Mistral client, `json.loads`, and the `re`
module — are modelled as oracle parameters gathered in `PyEnv`. Exceptions
are modelled with `Except`: `.error` is a raised Python exception. -/

/-- A parsed JSON object as `json.loads` can produce it: a Python dict,
whose keys are necessarily distinct. -/
structure PyDict where
  entries : List (String × PyVal)
  nodup_keys : (entries.map Prod.fst).Nodup

/-- A top-level `json.loads` result: a dict, or any other JSON value
(on which the subsequent `.get` attribute access raises). -/
inductive JsonTop where
  | jdict (d : PyDict)
  | jother (v : PyVal)

/-- The external collaborators of `pdf_parser.py`:
* `aiAvailable` — whether the `langchain_mistralai` import succeeded;
* `apiKey` — `os.environ.get("MISTRAL_API_KEY")`;
* `mkLLM` — constructing `ChatMistralAI(...)` (may raise, outside the `try`);
* `invokeLLM` — `llm.invoke(...).content.strip()` is modelled as a function of
  the `text[:4000]` prompt snippet, raising or returning the response text;
* `jsonLoads` — `json.loads`, raising `JSONDecodeError` or returning a value;
* `reSearch p t` — `re.search(p, t, re.IGNORECASE)` returning `group(1)`;
* `reFindall p t` — `re.findall(p, t, re.IGNORECASE)`;
* `setList` — `list(set(...))` on strings (element order unspecified). -/
structure PyEnv where
  aiAvailable : Bool
  apiKey : Option String
  mkLLM : Except Unit Unit
  invokeLLM : String → Except Unit String
  jsonLoads : String → Except Unit JsonTop
  reSearch : String → String → Option String
  reFindall : String → String → List String
  setList : List String → List String

/-- The default-null `info` schema built at the top of `extract_claim_info`
and of `extract_claim_info_regex`. -/
def defaultClaimInfo : List (String × PyVal) :=
  [("claim_number", .vnone), ("member_id", .vnone), ("policy_number", .vnone),
   ("service_date", .vnone), ("admission_date", .vnone), ("discharge_date", .vnone),
   ("denial_date", .vnone), ("provider", .vnone), ("hospital_name", .vnone),
   ("insurer_name", .vnone), ("tpa_name", .vnone), ("patient_name", .vnone),
   ("billed_amount", .vnone), ("allowed_amount", .vnone), ("denied_amount", .vnone),
   ("claim_amount", .vnone), ("denial_codes", .vlist []), ("denial_reason", .vnone)]

/-- The fixed ClaimFacts key set. -/
def schemaKeys : List String := defaultClaimInfo.map Prod.fst

/-- Strip markdown code fences from the model response:
`split("```json")[1].split("```")[0].strip()` etc. -/
def cleanupResponse (s : String) : String :=
  if pyIn "```json" s then
    pyStrip ((((s.splitOn "```json").getD 1 "").splitOn "```").getD 0 "")
  else if pyIn "```" s then
    pyStrip ((((s.splitOn "```").getD 1 "").splitOn "```").getD 0 "")
  else s

/-- Models `if extracted.get("denial_codes") and not isinstance(..., list):
extracted["denial_codes"] = [extracted["denial_codes"]]`. -/
def normalizeDenialCodes (kvs : List (String × PyVal)) : List (String × PyVal) :=
  match lookupA kvs "denial_codes" with
  | some v => if v.truthy ∧ ¬ v.isList then setA kvs "denial_codes" (.vlist [v]) else kvs
  | none => kvs

/-- Models `extract_claim_info_with_ai(text)`: returns the parsed dict (as an
association list), `{}` on any caught failure; raises (`.error`) only from
the `ChatMistralAI(...)` construction, which sits outside its `try`. -/
def extract_claim_info_with_ai (env : PyEnv) (text : String) :
    Except Unit (List (String × PyVal)) :=
  if !env.aiAvailable then .ok []
  else match env.apiKey with
  | none => .ok []
  | some k =>
    if k = "" then .ok []
    else match env.mkLLM with
    | .error e => .error e
    | .ok _ =>
      match env.invokeLLM (pyTake 4000 text) with
      | .error _ => .ok []
      | .ok content =>
        match env.jsonLoads (cleanupResponse (pyStrip content)) with
        | .error _ => .ok []
        | .ok (.jother _) => .ok []
        | .ok (.jdict d) => .ok (normalizeDenialCodes d.entries)

/-- The merge loop of `extract_claim_info`:
`for key, value in ai_info.items(): if value and key in info: info[key] = value`. -/
def mergeAi (info : List (String × PyVal)) (ai : List (String × PyVal)) :
    List (String × PyVal) :=
  ai.foldl
    (fun acc kv =>
      if kv.2.truthy ∧ (lookupA acc kv.1).isSome then setA acc kv.1 kv.2 else acc)
    info

/-- Pattern for claim numbers (source regex, braces written as escapes). -/
def claim_number_pattern : String :=
  "claim\\s*(?:number|#|no\\.?|id|ref)\\s*[:.]?\\s*([A-Z0-9\\-\\/]+)"

/-- Pattern for policy numbers. -/
def policy_number_pattern : String :=
  "policy\\s*(?:number|#|no\\.?)\\s*[:.]?\\s*([A-Z0-9\\-\\/]+)"

/-- Pattern for admission dates. -/
def admission_date_pattern : String :=
  "(?:admission|admitted)\\s*(?:date|on)?\\s*[:.]?\\s*(\\d\x7b1,2\x7d[\\/\\-]\\d\x7b1,2\x7d[\\/\\-]\\d\x7b2,4\x7d)"

/-- Pattern for discharge dates. -/
def discharge_date_pattern : String :=
  "discharge\\s*(?:date|on)?\\s*[:.]?\\s*(\\d\x7b1,2\x7d[\\/\\-]\\d\x7b1,2\x7d[\\/\\-]\\d\x7b2,4\x7d)"

/-- Pattern for claim amounts. -/
def claim_amount_pattern : String :=
  "(?:claim|total)\\s*amount\\s*[:.]?\\s*(?:Rs\\.?|₹|INR)?\\s*([\\d,]+)"

/-- The `patterns` dict of `extract_claim_info_regex`, in source order. -/
def fieldPatterns : List (String × String) :=
  [("claim_number", claim_number_pattern),
   ("policy_number", policy_number_pattern),
   ("admission_date", admission_date_pattern),
   ("discharge_date", discharge_date_pattern),
   ("claim_amount", claim_amount_pattern)]

/-- The denial-code token pattern fed to `re.findall`. -/
def code_pattern : String :=
  "\\b(PED-\\d+|WP-\\d+|EXC-\\d+|PA-\\d+|DOC-\\d+|MN-\\d+|NW-\\d+|SL-\\d+)\\b"

/-- The known-insurer gazetteer. -/
def insurers : List String :=
  ["Star Health", "ICICI Lombard", "HDFC ERGO", "Bajaj Allianz", "Max Bupa",
   "Care Health", "Niva Bupa", "Aditya Birla", "Tata AIG", "SBI General",
   "New India", "United India", "Oriental", "National Insurance"]

/-- The known-hospital gazetteer. -/
def hospitals : List String :=
  ["Apollo", "Fortis", "Max", "Medanta", "Narayana", "Manipal", "AIIMS",
   "Kokilaben", "Lilavati", "Hinduja", "Sir Ganga Ram", "BLK", "Artemis"]

/-- Models `rf"({hospital}[A-Za-z\s,]+(?:Hospital|Medical|Healthcare)?[^,\n]*)"`. -/
def hospitalPattern (h : String) : String :=
  "(" ++ h ++ "[A-Za-z\\s,]+(?:Hospital|Medical|Healthcare)?[^,\\n]*)"

/-- The `for field, pattern in patterns.items()` loop:
`info[field] = match.group(1).strip()` on a hit. -/
def applyPatterns (env : PyEnv) (text : String) (info : List (String × PyVal)) :
    List (String × String) → List (String × PyVal)
  | [] => info
  | (f, pat) :: rest =>
    applyPatterns env text
      (match env.reSearch pat text with
       | some m => setA info f (.vstr (pyStrip m))
       | none => info)
      rest

/-- The insurer loop: first gazetteer entry occurring (case-insensitively)
in the text. -/
def findInsurer (text : String) : List String → Option String
  | [] => none
  | i :: rest => if pyIn (pyLower i) (pyLower text) then some i else findInsurer text rest

/-- The hospital loop with its context-pattern search and `break`. -/
def applyHospital (env : PyEnv) (text : String) (info : List (String × PyVal)) :
    List String → List (String × PyVal)
  | [] => info
  | h :: rest =>
    if pyIn (pyLower h) (pyLower text) then
      match env.reSearch (hospitalPattern h) text with
      | some m => setA info "hospital_name" (.vstr (pyTake 50 (pyStrip m)))
      | none => setA info "hospital_name" (.vstr h)
    else applyHospital env text info rest

/-- Models `extract_claim_info_regex(text)` translated from the source. -/
def extract_claim_info_regex (env : PyEnv) (text : String) : List (String × PyVal) :=
  let info := defaultClaimInfo
  let info := applyPatterns env text info fieldPatterns
  let info :=
    match findInsurer text insurers with
    | some i => setA info "insurer_name" (.vstr i)
    | none => info
  let info := applyHospital env text info hospitals
  let codes := env.reFindall code_pattern text
  if codes.isEmpty then info
  else setA info "denial_codes" (.vlist ((env.setList codes).map PyVal.vstr))

/-- Models `extract_claim_info(text)`: AI path first (failures caught), merge truthy
values over the defaults when the AI dict is truthy, regex fallback
otherwise. The result is `.ok` iff no exception escapes. -/
def extract_claim_info (env : PyEnv) (text : String) :
    Except Unit (List (String × PyVal)) :=
  let info := defaultClaimInfo
  if env.aiAvailable then
    match extract_claim_info_with_ai env text with
    | .error _ => .ok (extract_claim_info_regex env text)
    | .ok ai_info =>
      if ai_info.isEmpty then .ok (extract_claim_info_regex env text)
      else .ok (mergeAi info ai_info)
  else .ok (extract_claim_info_regex env text)

/-- A concrete environment whose AI path yields a truthy dict: used to
instantiate the extractor theorems. -/
def envAiDict : PyEnv :=
  { aiAvailable := true
    apiKey := some "key"
    mkLLM := .ok ()
    invokeLLM := fun _ => .ok "x"
    jsonLoads := fun _ =>
      .ok (.jdict ⟨[("claim_number", .vstr "CLM-1"), ("denial_reason", .vstr "")],
                   by simp⟩)
    reSearch := fun _ _ => none
    reFindall := fun _ _ => []
    setList := fun l => l }

/-- A concrete environment with no AI path at all. -/
def envNoAi : PyEnv :=
  { aiAvailable := false
    apiKey := none
    mkLLM := .ok ()
    invokeLLM := fun _ => .error ()
    jsonLoads := fun _ => .error ()
    reSearch := fun _ _ => none
    reFindall := fun _ _ => []
    setList := fun l => l }

/-! ## Pipeline definition (`src/crew.py`) and app glue (`src/app.py`)

Agents are identified by their role; the agent goal/backstory prompt text
and the CrewAI runtime are external to the verified pipeline structure. -/

/-- The six agent roles, in creation order. -/
inductive AgentRole where
  | documentAnalyzer
  | policyExpert
  | denialReviewer
  | appealStrategist
  | letterWriter
  | qualityReviewer
deriving DecidableEq, Repr

/-- Models `Process.sequential` vs `Process.hierarchical`. -/
inductive ProcessKind where
  | sequential
  | hierarchical
deriving DecidableEq, Repr

/-- The CrewAI `LLM(...)` value built by `get_llm`. -/
structure LLMConfig where
  model : String
  api_key : Option String
  temperature : Rat
deriving DecidableEq, Repr

/-- Models `get_llm()`: no credential check — the configured key is passed through
as-is, unset included. -/
def get_llm (apiKey : Option String) : LLMConfig :=
  { model := "mistral/mistral-small-latest", api_key := apiKey, temperature := 3/10 }

/-- One CrewAI `Task(...)`: owning agent, description (the stage prompt),
expected output, and the declared context as the list of stage numbers
whose outputs the task reads (empty when no `context=` was given). -/
structure MTask where
  agent : AgentRole
  description : String
  expected_output : String
  context : List Nat
deriving DecidableEq, Repr

/-- The `Crew(...)` value: agent list, task list, process, manager LLM. -/
structure CrewSpec where
  agents : List AgentRole
  tasks : List MTask
  process : ProcessKind
  manager_llm : LLMConfig
deriving DecidableEq, Repr

/-- A single-quote character, for Python `repr` of strings. -/
def squote : String := String.singleton (Char.ofNat 39)

/-- Python `str()` of a `str → str` dict (as interpolated by the task-5
f-string; escaping inside the values is not modelled). -/
def pyDictRepr (d : List (String × String)) : String :=
  "\x7b" ++
    String.intercalate ", "
      (d.map (fun kv => squote ++ kv.1 ++ squote ++ ": " ++ squote ++ kv.2 ++ squote)) ++
  "\x7d"

/-- The stage-1 prompt (`create_document_analysis_task`), embedding the raw
document text in full. -/
def documentAnalysisDescription (document_text : String) : String :=
  "Analyze the following insurance document and extract ALL relevant information.\n\nDOCUMENT TEXT:\n"
  ++ document_text ++
  "\n\nExtract and structure:\n1. Claim Details:\n   - Claim number\n   - Member/Policy ID\n   - Date of service\n   - Provider name\n   - Billed amount\n   - Allowed amount\n   - Denied amount\n\n2. Denial Information:\n   - Denial date\n   - Denial code(s)\n   - Stated denial reason\n   - Any specific policy sections referenced\n\n3. Patient/Member Information:\n   - Patient name (if visible)\n   - Coverage type\n\n4. Important Deadlines:\n   - Appeal deadline (if mentioned)\n   - Any other time-sensitive information\n\nIf any information is not found, indicate \"Not found in document\".\nBe thorough - missing information could hurt the appeal."

/-- Models `policy_text[:3000] if policy_text else 'Not provided'` from the stage-2
task of `create_claim_assistant_crew`. -/
def policySnippet (policy_text : Option String) : String :=
  match policy_text with
  | some p => if p = "" then "Not provided" else pyTake 3000 p
  | none => "Not provided"

/-- The fixed text of the stage-2 prompt before the policy snippet. -/
def stage2Pre : String :=
  "Analyze the claim for coverage based on the document analysis.\n        \nUse the extracted claim information from the previous task.\nPolicy text (if available): "

/-- The fixed text of the stage-2 prompt after the policy snippet. -/
def stage2Suf : String :=
  "\n\nDetermine coverage expectations and identify any insurer errors."

/-- The stage-2 prompt of `create_claim_assistant_crew`. -/
def policyTaskDescription (policy_text : Option String) : String :=
  stage2Pre ++ policySnippet policy_text ++ stage2Suf

/-- The stage-3 prompt, embedding the precomputed denial-code report. -/
def denialReviewDescription (denial_analysis : String) : String :=
  "Review the denial validity based on document analysis and coverage assessment.\n\nDenial code analysis:\n"
  ++ denial_analysis ++
  "\n\nDetermine if the denial should be appealed and estimate success likelihood."

/-- The stage-4 prompt: a constant — it embeds no raw input at all. -/
def appealStrategyDescription : String :=
  "Develop a comprehensive appeal strategy based on all previous analysis.\n        \nFocus on the strongest legal and factual arguments.\nInclude specific regulations and policy references."

/-- The stage-5 prompt, embedding `str(patient_info)`. -/
def letterWritingDescription (patient_info : List (String × String)) : String :=
  "Write a professional appeal letter using the strategy.\n\nPatient information:\n"
  ++ pyDictRepr patient_info ++
  "\n\nCreate a complete, ready-to-send appeal letter."

/-- The stage-6 prompt: a constant. -/
def qualityReviewDescription : String :=
  "Review and finalize the appeal letter.\n        \nEnsure accuracy, completeness, professionalism, and persuasiveness.\nProvide the final polished version."

/-- Models `create_claim_assistant_crew(...)` translated from the source: six tasks
in fixed order with their declared contexts, sequential process, Mistral
manager LLM. `apiKey` stands for `config.MISTRAL_API_KEY`, `knowledge` for
the loaded denial-code data. -/
def create_claim_assistant_crew
    (apiKey : Option String) (knowledge : KnowledgeData)
    (document_text : String) (denial_codes : Option (List String))
    (policy_text : Option String) (patient_info : Option (List (String × String))) :
    CrewSpec :=
  let patient_info := patient_info.getD []
  let llm := get_llm apiKey
  let denial_analysis :=
    match denial_codes with
    | some cs =>
      if cs.isEmpty then ""
      else format_denial_analysis_report (analyze_denial_codes knowledge cs)
    | none => ""
  let task1 : MTask :=
    { agent := .documentAnalyzer
      description := documentAnalysisDescription document_text
      expected_output := "A structured report containing all extracted claim information,\ndenial details, and relevant deadlines. Format as a clear document with sections."
      context := [] }
  let task2 : MTask :=
    { agent := .policyExpert
      description := policyTaskDescription policy_text
      expected_output := "Coverage analysis with recommendations"
      context := [1] }
  let task3 : MTask :=
    { agent := .denialReviewer
      description := denialReviewDescription denial_analysis
      expected_output := "Denial validity assessment with appeal recommendation"
      context := [1, 2] }
  let task4 : MTask :=
    { agent := .appealStrategist
      description := appealStrategyDescription
      expected_output := "Detailed appeal strategy document"
      context := [1, 2, 3] }
  let task5 : MTask :=
    { agent := .letterWriter
      description := letterWritingDescription patient_info
      expected_output := "Complete professional appeal letter"
      context := [1, 4] }
  let task6 : MTask :=
    { agent := .qualityReviewer
      description := qualityReviewDescription
      expected_output := "Final polished appeal letter with next steps"
      context := [1, 5] }
  { agents := [.documentAnalyzer, .policyExpert, .denialReviewer,
               .appealStrategist, .letterWriter, .qualityReviewer]
    tasks := [task1, task2, task3, task4, task5, task6]
    process := .sequential
    manager_llm := llm }

/-- Whether `run_claim_analysis` got past its own code before any stage ran:
`refused` would mean it returned or raised before `crew.kickoff()`;
`started crew` means it reached `kickoff` on the built crew. -/
inductive RunStart where
  | refused
  | started (crew : CrewSpec)
deriving DecidableEq, Repr

/-- Models `run_claim_analysis(...)`: builds the crew and immediately calls
`crew.kickoff()` — it contains no credential check of its own. -/
def run_claim_analysis
    (apiKey : Option String) (knowledge : KnowledgeData)
    (document_text : String) (denial_codes : Option (List String))
    (policy_text : Option String) (patient_info : Option (List (String × String))) :
    RunStart :=
  RunStart.started
    (create_claim_assistant_crew apiKey knowledge document_text denial_codes
      policy_text patient_info)

/-- Truthiness of `config.MISTRAL_API_KEY` (`os.getenv` result). -/
def keyConfigured (apiKey : Option String) : Bool :=
  match apiKey with
  | none => false
  | some s => s ≠ ""

/-- What `app.main()` does after rendering header and sidebar. -/
inductive MainAction where
  | refusedMissingKey
  | renderStep (n : Nat)
deriving DecidableEq, Repr

/-- The API-key gate of `app.main()`: `if not config.MISTRAL_API_KEY:` show
an error and return — before any step (and hence any pipeline run) is
reached. -/
def main_api_key_gate (apiKey : Option String) (step : Nat) : MainAction :=
  if !keyConfigured apiKey then .refusedMissingKey else .renderStep step

/-- The fixed marker list of `separate_letter_and_next_steps`. -/
def next_steps_markers : List String :=
  ["**Next Steps:**",
   "**Next Steps**",
   "## Next Steps",
   "### Next Steps",
   "**Final Notes:**",
   "**Final Notes**",
   "## Final Notes"]

/-- The `for marker in next_steps_markers` loop with its `break`. -/
def sepGo (full_result : String) : List String → String × String
  | [] => (full_result, "")
  | m :: ms =>
    match splitOnce full_result m with
    | some (pre, post) => (pyStrip pre, m ++ post)
    | none => sepGo full_result ms

/-- Models `separate_letter_and_next_steps(full_result)` from `src/app.py`. -/
def separate_letter_and_next_steps (full_result : String) : String × String :=
  sepGo full_result next_steps_markers

/-- A 3001-character policy text, longer than the stage-2 cap. -/
def longPolicy : String := String.mk (List.replicate 3001 'a')

/-- A final artifact whose letter part ends in whitespace before the marker. -/
def sampleArtifact : String := "Dear Sir \n**Next Steps:** do X"

/-- A knowledge mapping whose current-format keys are present but map to
empty tables, with populated legacy tables. -/
def legacyKnowledge : KnowledgeData :=
  { rejection_codes := some
      []
    denial_codes := some
      [("X-1",
        { description := "Legacy code"
          category := "CatA"
          success_rate := "Low"
          common_causes := []
          appeal_grounds := [] })]
    rejection_categories := some []
    denial_categories := some
      [("CatA", { codes := ["X-1"], common_appeal_strategies := ["strategy"] })] }

/-- A knowledge mapping where both schema variants are empty or absent. -/
def emptyKnowledge : KnowledgeData :=
  { rejection_codes := some []
    denial_codes := none
    rejection_categories := none
    denial_categories := some [] }

/-! ## Supporting lemmas -/

theorem string_length_mk (l : List Char) : (String.mk l).length = l.length := rfl

theorem length_pyTake (n : Nat) (s : String) : (pyTake n s).length = min n s.length := by
  rw [pyTake, string_length_mk, List.length_take]
  rfl

theorem longPolicy_length : longPolicy.length = 3001 := by
  rw [longPolicy, string_length_mk, List.length_replicate]

theorem longPolicy_ne_empty : longPolicy ≠ "" := by
  intro h
  have := congrArg String.length h
  rw [longPolicy_length] at this
  simp [String.length] at this

/-! ## Claim C1 — pipeline shape -/

/-- C1: every crew consists of exactly six tasks in the fixed agent order
DocumentAnalysis, PolicyAnalysis, DenialReview, AppealStrategy,
LetterDrafting, QualityReview, executed under the sequential process, with
declared read-sets stage 2 ↦ {1}, stage 3 ↦ {1,2}, stage 4 ↦ {1,2,3},
stage 5 ↦ {1,4}, stage 6 ↦ {1,5}; stage 4's prompt is the closed constant
`appealStrategyDescription`, so it embeds no raw `document_text`. -/
theorem c1_pipeline_structure
    (apiKey : Option String) (knowledge : KnowledgeData) (d : String)
    (dc : Option (List String)) (p : Option String)
    (pi : Option (List (String × String))) :
    (create_claim_assistant_crew apiKey knowledge d dc p pi).tasks.length = 6
    ∧ (create_claim_assistant_crew apiKey knowledge d dc p pi).tasks.map MTask.agent
        = [.documentAnalyzer, .policyExpert, .denialReviewer,
           .appealStrategist, .letterWriter, .qualityReviewer]
    ∧ (create_claim_assistant_crew apiKey knowledge d dc p pi).tasks.map MTask.context
        = [[], [1], [1, 2], [1, 2, 3], [1, 4], [1, 5]]
    ∧ (create_claim_assistant_crew apiKey knowledge d dc p pi).process
        = ProcessKind.sequential
    ∧ (create_claim_assistant_crew apiKey knowledge d dc p pi).tasks.get? 3
        = some { agent := .appealStrategist
                 description := appealStrategyDescription
                 expected_output := "Detailed appeal strategy document"
                 context := [1, 2, 3] } :=
  ⟨rfl, rfl, rfl, rfl, rfl⟩

/-! ## Claim C2 — stage-2 policy cap -/

/-- C2 counterexample: on a 3001-character policy text the stage-2 prompt of
the crew embeds only the first 3000 characters — it is not the prompt that
would embed the first 5000 characters, refuting the claimed 5000-character
cap. -/
theorem c2_policy_cap_counterexample :
    ((create_claim_assistant_crew none specKnowledge "" none (some longPolicy)
        none).tasks.map MTask.description).get? 1
      = some (stage2Pre ++ pyTake 3000 longPolicy ++ stage2Suf)
    ∧ stage2Pre ++ pyTake 3000 longPolicy ++ stage2Suf
        ≠ stage2Pre ++ pyTake 5000 longPolicy ++ stage2Suf := by
  constructor
  · simp [create_claim_assistant_crew, policyTaskDescription, policySnippet,
      longPolicy_ne_empty]
  · intro h
    have hl := congrArg String.length h
    simp only [String.length_append, length_pyTake, longPolicy_length] at hl
    omega

/-- C2 amended: for every run, the stage-2 (Policy Analysis) prompt of the
crew embeds exactly the first 3000 characters of `policy_text` when it is
provided and non-empty; when `policy_text` is absent or empty, the literal
placeholder `Not provided` is embedded and no policy content appears. -/
theorem c2_policy_cap_amended
    (apiKey : Option String) (knowledge : KnowledgeData) (d : String)
    (dc : Option (List String)) (pi : Option (List (String × String)))
    (p : String) (hp : p ≠ "") :
    ((create_claim_assistant_crew apiKey knowledge d dc (some p) pi).tasks.map
        MTask.description).get? 1
      = some (stage2Pre ++ pyTake 3000 p ++ stage2Suf)
    ∧ ((create_claim_assistant_crew apiKey knowledge d dc none pi).tasks.map
        MTask.description).get? 1
      = some (stage2Pre ++ "Not provided" ++ stage2Suf)
    ∧ ((create_claim_assistant_crew apiKey knowledge d dc (some "") pi).tasks.map
        MTask.description).get? 1
      = some (stage2Pre ++ "Not provided" ++ stage2Suf) := by
  refine ⟨?_, rfl, rfl⟩
  simp [create_claim_assistant_crew, policyTaskDescription, policySnippet, hp]

/-- Witness for `c2_policy_cap_amended` at a concrete non-empty policy. -/
theorem c2_policy_cap_amended_witness :
    ((create_claim_assistant_crew none specKnowledge "" none (some "pol") none).tasks.map
        MTask.description).get? 1
      = some (stage2Pre ++ pyTake 3000 "pol" ++ stage2Suf) :=
  (c2_policy_cap_amended none specKnowledge "" none none "pol" (by decide)).1

/-! ## Claim C3 — missing-credential refusal -/

/-- C3 counterexample: with `MISTRAL_API_KEY` unset, `run_claim_analysis`
does not refuse — it proceeds to build the crew and reach `kickoff`. -/
theorem c3_refusal_counterexample :
    run_claim_analysis none specKnowledge "Claim denied" none none none
      ≠ RunStart.refused := by
  simp [run_claim_analysis]

/-- C3 amended: the credential gate lives in the UI entry point `app.main`,
which refuses (renders an error and returns before any step) whenever
`MISTRAL_API_KEY` is unset or empty; `run_claim_analysis` itself performs no
credential check — with the key unset it still starts the crew, whose
manager LLM carries the absent key. -/
theorem c3_refusal_amended :
    (∀ step : Nat, main_api_key_gate none step = MainAction.refusedMissingKey)
    ∧ (∀ step : Nat, main_api_key_gate (some "") step = MainAction.refusedMissingKey)
    ∧ (∀ (knowledge : KnowledgeData) (d : String) (dc : Option (List String))
         (p : Option String) (pi : Option (List (String × String))),
        ∃ crew, run_claim_analysis none knowledge d dc p pi = RunStart.started crew
          ∧ crew.manager_llm.api_key = none) :=
  ⟨fun _ => rfl, fun _ => rfl, fun _ _ _ _ _ => ⟨_, rfl, rfl⟩⟩

/-! ## Association-list lemmas -/

theorem lookupA_isSome_of_mem {α : Type} {kvs : List (String × α)} {k : String}
    {v : α} (h : (k, v) ∈ kvs) : (lookupA kvs k).isSome := by
  induction kvs with
  | nil => cases h
  | cons kv rest ih =>
    obtain ⟨k1, v1⟩ := kv
    rcases List.mem_cons.mp h with h | h
    · obtain ⟨hk, -⟩ := Prod.mk.injEq .. ▸ h.symm
      simp [lookupA, hk]
    · by_cases hk : k1 = k
      · simp [lookupA, hk]
      · simpa [lookupA, hk] using ih h

theorem lookupA_eq_none_iff {α : Type} (kvs : List (String × α)) (k : String) :
    lookupA kvs k = none ↔ k ∉ kvs.map Prod.fst := by
  induction kvs with
  | nil => simp [lookupA]
  | cons kv rest ih =>
    by_cases hk : kv.1 = k
    · simp [lookupA, hk]
    · simp [lookupA, hk, ih, Ne.symm hk]

theorem lookupA_eq_of_mem_nodup {α : Type} {kvs : List (String × α)} {k : String}
    {v : α} (hnd : (kvs.map Prod.fst).Nodup) (h : (k, v) ∈ kvs) :
    lookupA kvs k = some v := by
  induction kvs with
  | nil => cases h
  | cons kv rest ih =>
    obtain ⟨k1, v1⟩ := kv
    rcases List.mem_cons.mp h with h | h
    · obtain ⟨hk, hv⟩ := Prod.mk.injEq .. ▸ h.symm
      simp [lookupA, hk, hv]
    · have hk : k1 ≠ k := by
        intro he
        have hm : k ∈ rest.map Prod.fst := List.mem_map_of_mem Prod.fst h
        rw [he] at hnd
        exact (List.nodup_cons.mp hnd).1 hm
      simpa [lookupA, hk] using ih (List.nodup_cons.mp hnd).2 h

theorem lookupA_setA_self {α : Type} (kvs : List (String × α)) (k : String) (v : α) :
    lookupA (setA kvs k v) k = some v := by
  induction kvs with
  | nil => simp [setA, lookupA]
  | cons kv rest ih =>
    by_cases hk : kv.1 = k
    · simp [setA, hk, lookupA]
    · simpa [setA, hk, lookupA] using ih

theorem lookupA_setA_ne {α : Type} (kvs : List (String × α)) {k k' : String}
    (v : α) (h : k ≠ k') : lookupA (setA kvs k v) k' = lookupA kvs k' := by
  induction kvs with
  | nil => simp [setA, lookupA, h]
  | cons kv rest ih =>
    obtain ⟨k1, v1⟩ := kv
    by_cases hk : k1 = k
    · rw [show setA ((k1, v1) :: rest) k v = (k, v) :: rest from by
        simp [setA, hk]]
      subst hk
      simp [lookupA, h]
    · rw [show setA ((k1, v1) :: rest) k v = (k1, v1) :: setA rest k v from by
        simp [setA, hk]]
      by_cases hk' : k1 = k'
      · simp [lookupA, hk']
      · simpa [lookupA, hk'] using ih

theorem setA_map_fst {α : Type} {kvs : List (String × α)} {k : String}
    (h : (lookupA kvs k).isSome) (v : α) :
    (setA kvs k v).map Prod.fst = kvs.map Prod.fst := by
  induction kvs with
  | nil => simp [lookupA] at h
  | cons kv rest ih =>
    by_cases hk : kv.1 = k
    · simp [setA, hk]
    · simp only [lookupA, hk, if_false] at h
      simp [setA, hk, ih h]

theorem mem_keys_iff_lookupA {α : Type} (kvs : List (String × α)) (k : String) :
    k ∈ kvs.map Prod.fst ↔ (lookupA kvs k).isSome := by
  constructor
  · intro hm
    by_contra hns
    rw [Option.not_isSome_iff_eq_none] at hns
    exact (lookupA_eq_none_iff kvs k).mp hns hm
  · intro hs
    by_contra hm
    rw [(lookupA_eq_none_iff kvs k).mpr hm] at hs
    simp at hs

theorem mem_setA_self_nodup {α : Type} {kvs : List (String × α)} {k : String}
    {v w : α} (hnd : (kvs.map Prod.fst).Nodup) (h : (k, v) ∈ setA kvs k w) :
    v = w := by
  induction kvs with
  | nil =>
    simpa [setA] using h
  | cons kv rest ih =>
    obtain ⟨k1, v1⟩ := kv
    by_cases hk : k1 = k
    · rw [show setA ((k1, v1) :: rest) k w = (k, w) :: rest from by
        simp [setA, hk]] at h
      rcases List.mem_cons.mp h with h | h
      · exact (Prod.mk.injEq .. ▸ h).2
      · exfalso
        have hm : k ∈ rest.map Prod.fst := List.mem_map_of_mem Prod.fst h
        rw [hk] at hnd
        exact (List.nodup_cons.mp hnd).1 hm
    · rw [show setA ((k1, v1) :: rest) k w = (k1, v1) :: setA rest k w from by
        simp [setA, hk]] at h
      rcases List.mem_cons.mp h with h | h
      · exact absurd (Prod.mk.injEq .. ▸ h).1.symm hk
      · exact ih (List.nodup_cons.mp hnd).2 h

/-! ## Merge-loop lemmas -/

theorem mergeAi_nil (info : List (String × PyVal)) : mergeAi info [] = info := rfl

theorem mergeAi_cons (info : List (String × PyVal)) (kv : String × PyVal)
    (rest : List (String × PyVal)) :
    mergeAi info (kv :: rest)
      = mergeAi
          (if kv.2.truthy ∧ (lookupA info kv.1).isSome then setA info kv.1 kv.2 else info)
          rest := rfl

theorem mergeAi_map_fst (ai : List (String × PyVal)) :
    ∀ info, (mergeAi info ai).map Prod.fst = info.map Prod.fst := by
  induction ai with
  | nil => intro info; rfl
  | cons kv rest ih =>
    intro info
    rw [mergeAi_cons]
    by_cases h : kv.2.truthy ∧ (lookupA info kv.1).isSome
    · rw [if_pos h, ih, setA_map_fst h.2]
    · rw [if_neg h, ih]

theorem mergeAi_lookup (ai : List (String × PyVal)) :
    ∀ (info : List (String × PyVal)) (k : String),
      lookupA (mergeAi info ai) k = lookupA info k
      ∨ ∃ v, (k, v) ∈ ai ∧ v.truthy ∧ lookupA (mergeAi info ai) k = some v := by
  induction ai with
  | nil => intro info k; exact Or.inl rfl
  | cons kv rest ih =>
    intro info k
    rw [mergeAi_cons]
    by_cases h : kv.2.truthy ∧ (lookupA info kv.1).isSome
    · rw [if_pos h]
      rcases ih (setA info kv.1 kv.2) k with hl | ⟨v, hv, hvt, hvl⟩
      · by_cases hk : kv.1 = k
        · subst hk
          refine Or.inr ⟨kv.2, List.mem_cons_self _ _, h.1, ?_⟩
          rw [hl, lookupA_setA_self]
        · rw [hl, lookupA_setA_ne _ _ hk]
          exact Or.inl rfl
      · exact Or.inr ⟨v, List.mem_cons_of_mem _ hv, hvt, hvl⟩
    · rw [if_neg h]
      rcases ih info k with hl | ⟨v, hv, hvt, hvl⟩
      · exact Or.inl hl
      · exact Or.inr ⟨v, List.mem_cons_of_mem _ hv, hvt, hvl⟩

/-! ## Extractor lemmas -/

theorem applyPatterns_map_fst (env : PyEnv) (text : String) :
    ∀ (fps : List (String × String)) (info : List (String × PyVal)),
      (∀ f ∈ fps.map Prod.fst, f ∈ info.map Prod.fst) →
      (applyPatterns env text info fps).map Prod.fst = info.map Prod.fst := by
  intro fps
  induction fps with
  | nil => intro info _; rfl
  | cons fp rest ih =>
    intro info hmem
    obtain ⟨f, pat⟩ := fp
    rcases hs : env.reSearch pat text with _ | m
    · rw [show applyPatterns env text info ((f, pat) :: rest)
            = applyPatterns env text info rest from by simp [applyPatterns, hs]]
      exact ih info (fun g hg => hmem g (List.mem_cons_of_mem _ hg))
    · have hf : f ∈ info.map Prod.fst := hmem f (by simp)
      have hsome := (mem_keys_iff_lookupA info f).mp hf
      rw [show applyPatterns env text info ((f, pat) :: rest)
            = applyPatterns env text (setA info f (.vstr (pyStrip m))) rest from by
          simp [applyPatterns, hs]]
      rw [ih _ (fun g hg => by
            rw [setA_map_fst hsome]
            exact hmem g (List.mem_cons_of_mem _ hg)),
        setA_map_fst hsome]

theorem applyPatterns_lookup_ne (env : PyEnv) (text : String) (k : String) :
    ∀ (fps : List (String × String)) (info : List (String × PyVal)),
      (∀ f ∈ fps.map Prod.fst, f ≠ k) →
      lookupA (applyPatterns env text info fps) k = lookupA info k := by
  intro fps
  induction fps with
  | nil => intro info _; rfl
  | cons fp rest ih =>
    intro info hne
    obtain ⟨f, pat⟩ := fp
    rcases hs : env.reSearch pat text with _ | m
    · rw [show applyPatterns env text info ((f, pat) :: rest)
            = applyPatterns env text info rest from by simp [applyPatterns, hs]]
      exact ih info (fun g hg => hne g (List.mem_cons_of_mem _ hg))
    · rw [show applyPatterns env text info ((f, pat) :: rest)
            = applyPatterns env text (setA info f (.vstr (pyStrip m))) rest from by
          simp [applyPatterns, hs]]
      rw [ih _ (fun g hg => hne g (List.mem_cons_of_mem _ hg)),
        lookupA_setA_ne _ _ (hne f (by simp))]

theorem applyHospital_map_fst (env : PyEnv) (text : String) :
    ∀ (hs : List String) (info : List (String × PyVal)),
      "hospital_name" ∈ info.map Prod.fst →
      (applyHospital env text info hs).map Prod.fst = info.map Prod.fst := by
  intro hs
  induction hs with
  | nil => intro info _; rfl
  | cons h rest ih =>
    intro info hmem
    have hsome := (mem_keys_iff_lookupA info "hospital_name").mp hmem
    by_cases hin : pyIn (pyLower h) (pyLower text)
    · rcases hsr : env.reSearch (hospitalPattern h) text with _ | m
      · rw [show applyHospital env text info (h :: rest)
              = setA info "hospital_name" (.vstr h) from by
            simp [applyHospital, hin, hsr]]
        exact setA_map_fst hsome _
      · rw [show applyHospital env text info (h :: rest)
              = setA info "hospital_name" (.vstr (pyTake 50 (pyStrip m))) from by
            simp [applyHospital, hin, hsr]]
        exact setA_map_fst hsome _
    · rw [show applyHospital env text info (h :: rest)
            = applyHospital env text info rest from by simp [applyHospital, hin]]
      exact ih info hmem

theorem applyHospital_lookup_ne (env : PyEnv) (text : String) {k : String}
    (hk : ¬ ("hospital_name" : String) = k) :
    ∀ (hs : List String) (info : List (String × PyVal)),
      lookupA (applyHospital env text info hs) k = lookupA info k := by
  intro hs
  induction hs with
  | nil => intro info; rfl
  | cons h rest ih =>
    intro info
    by_cases hin : pyIn (pyLower h) (pyLower text)
    · rcases hsr : env.reSearch (hospitalPattern h) text with _ | m
      · rw [show applyHospital env text info (h :: rest)
              = setA info "hospital_name" (.vstr h) from by
            simp [applyHospital, hin, hsr]]
        exact lookupA_setA_ne _ _ hk
      · rw [show applyHospital env text info (h :: rest)
              = setA info "hospital_name" (.vstr (pyTake 50 (pyStrip m))) from by
            simp [applyHospital, hin, hsr]]
        exact lookupA_setA_ne _ _ hk
    · rw [show applyHospital env text info (h :: rest)
            = applyHospital env text info rest from by simp [applyHospital, hin]]
      exact ih info

theorem extract_regex_map_fst (env : PyEnv) (text : String) :
    (extract_claim_info_regex env text).map Prod.fst = schemaKeys := by
  unfold extract_claim_info_regex
  have h1 : (applyPatterns env text defaultClaimInfo fieldPatterns).map Prod.fst
      = schemaKeys :=
    applyPatterns_map_fst env text fieldPatterns defaultClaimInfo (by decide)
  have h2 : ∀ info : List (String × PyVal), info.map Prod.fst = schemaKeys →
      (match findInsurer text insurers with
       | some i => setA info "insurer_name" (.vstr i)
       | none => info).map Prod.fst = schemaKeys := by
    intro info hinfo
    rcases findInsurer text insurers with _ | i
    · exact hinfo
    · rw [setA_map_fst ((mem_keys_iff_lookupA info _).mp (by rw [hinfo]; decide)), hinfo]
  have h3 : ∀ info : List (String × PyVal), info.map Prod.fst = schemaKeys →
      (applyHospital env text info hospitals).map Prod.fst = schemaKeys := by
    intro info hinfo
    rw [applyHospital_map_fst env text hospitals info (by rw [hinfo]; decide), hinfo]
  set info2 := match findInsurer text insurers with
    | some i => setA (applyPatterns env text defaultClaimInfo fieldPatterns)
        "insurer_name" (.vstr i)
    | none => applyPatterns env text defaultClaimInfo fieldPatterns with hinfo2
  have h4 : (applyHospital env text info2 hospitals).map Prod.fst = schemaKeys :=
    h3 info2 (by rw [hinfo2]; exact h2 _ h1)
  rcases hc : env.reFindall code_pattern text with _ | ⟨c, cs⟩
  · simpa using h4
  · simp only [List.isEmpty_cons, if_false, Bool.false_eq_true]
    rw [setA_map_fst ((mem_keys_iff_lookupA _ _).mp (by rw [h4]; decide)), h4]

theorem extract_regex_denial_codes (env : PyEnv) (text : String) :
    ∃ xs, lookupA (extract_claim_info_regex env text) "denial_codes"
      = some (.vlist xs) := by
  unfold extract_claim_info_regex
  have h1 : lookupA (applyPatterns env text defaultClaimInfo fieldPatterns)
      "denial_codes" = some (.vlist []) := by
    rw [applyPatterns_lookup_ne env text _ fieldPatterns defaultClaimInfo (by decide)]
    rfl
  have h2 : lookupA
      (match findInsurer text insurers with
       | some i => setA (applyPatterns env text defaultClaimInfo fieldPatterns)
           "insurer_name" (.vstr i)
       | none => applyPatterns env text defaultClaimInfo fieldPatterns)
      "denial_codes" = some (.vlist []) := by
    rcases findInsurer text insurers with _ | i
    · exact h1
    · rw [lookupA_setA_ne _ _ (by decide)]
      exact h1
  rcases hc : env.reFindall code_pattern text with _ | ⟨c, cs⟩
  · refine ⟨[], ?_⟩
    simp only [List.isEmpty_nil, if_true]
    rw [applyHospital_lookup_ne env text (by decide) hospitals]
    exact h2
  · refine ⟨(env.setList (c :: cs)).map PyVal.vstr, ?_⟩
    simp only [List.isEmpty_cons, if_false, Bool.false_eq_true]
    exact lookupA_setA_self _ _ _

theorem with_ai_ok_shape {env : PyEnv} {text : String} {l : List (String × PyVal)}
    (h : extract_claim_info_with_ai env text = .ok l) :
    l = [] ∨ ∃ d : PyDict, l = normalizeDenialCodes d.entries := by
  unfold extract_claim_info_with_ai at h
  repeat' split at h
  all_goals first
    | exact (Except.noConfusion h)
    | (injection h with h
       first
         | exact Or.inl h.symm
         | exact Or.inr ⟨_, h.symm⟩)

theorem normalize_denial_vlist (d : PyDict) {v : PyVal}
    (hm : ("denial_codes", v) ∈ normalizeDenialCodes d.entries)
    (ht : v.truthy) : ∃ xs, v = .vlist xs := by
  rcases hl : lookupA d.entries "denial_codes" with _ | w
  · rw [show normalizeDenialCodes d.entries = d.entries from by
      simp [normalizeDenialCodes, hl]] at hm
    have hsome := lookupA_isSome_of_mem hm
    rw [hl] at hsome
    simp at hsome
  · by_cases hc : w.truthy ∧ ¬ w.isList
    · rw [show normalizeDenialCodes d.entries
          = setA d.entries "denial_codes" (.vlist [w]) from by
        simp only [normalizeDenialCodes, hl]
        rw [if_pos hc]] at hm
      exact ⟨[w], mem_setA_self_nodup d.nodup_keys hm⟩
    · rw [show normalizeDenialCodes d.entries = d.entries from by
        simp only [normalizeDenialCodes, hl]
        rw [if_neg hc]] at hm
      have hv : v = w := by
        have hlk := lookupA_eq_of_mem_nodup d.nodup_keys hm
        rw [hl] at hlk
        injection hlk with h2
        exact h2.symm
      subst hv
      push_neg at hc
      have hlist : v.isList = true := by simpa using hc ht
      cases v with
      | vlist xs => exact ⟨xs, rfl⟩
      | vnone => simp [PyVal.isList] at hlist
      | vstr s => simp [PyVal.isList] at hlist
      | vint n => simp [PyVal.isList] at hlist
      | vdict kvs => simp [PyVal.isList] at hlist

/-! ## Claim C4 — extractor totality and schema -/

/-- C4: for every input text and every behaviour of the model-assisted path
(raising, malformed or non-dict output included), `extract_claim_info` is
total — no exception escapes — and its result carries exactly the fixed
ClaimFacts key set, with `denial_codes` always bound to a (possibly empty)
list, never absent. -/
theorem c4_extractor_total (env : PyEnv) (text : String) :
    ∃ r, extract_claim_info env text = .ok r
      ∧ r.map Prod.fst = schemaKeys
      ∧ ∃ xs, lookupA r "denial_codes" = some (.vlist xs) := by
  unfold extract_claim_info
  cases ha : env.aiAvailable with
  | false =>
    simp only [Bool.false_eq_true, if_false]
    exact ⟨_, rfl, extract_regex_map_fst env text, extract_regex_denial_codes env text⟩
  | true =>
    simp only [if_true]
    rcases hai : extract_claim_info_with_ai env text with e | ai
    · exact ⟨_, rfl, extract_regex_map_fst env text, extract_regex_denial_codes env text⟩
    · by_cases hne : ai.isEmpty
      · simp only [hne, if_true]
        exact ⟨_, rfl, extract_regex_map_fst env text, extract_regex_denial_codes env text⟩
      · simp only [hne, Bool.false_eq_true, if_false]
        refine ⟨mergeAi defaultClaimInfo ai, rfl, mergeAi_map_fst ai defaultClaimInfo, ?_⟩
        rcases mergeAi_lookup ai defaultClaimInfo "denial_codes" with hd | ⟨v, hv, hvt, hvl⟩
        · exact ⟨[], by rw [hd]; rfl⟩
        · rcases with_ai_ok_shape hai with hnil | ⟨d, hdl⟩
          · rw [hnil] at hne
            simp at hne
          · rw [hdl] at hv
            obtain ⟨xs, hxs⟩ := normalize_denial_vlist d hv hvt
            exact ⟨xs, by rw [hvl, hxs]⟩

/-! ## Claim C6 — merge rule of the model-assisted path -/

/-- C6: when the model-assisted path succeeds with a truthy dict, the result
is the default-null schema overlaid with that dict: the key set stays exactly
the schema (foreign keys are discarded), and each key either keeps its
default or takes a truthy extracted value — a null/empty model value never
replaces a default. -/
theorem c6_merge_rule (env : PyEnv) (text : String) (ai : List (String × PyVal))
    (ha : env.aiAvailable = true)
    (hok : extract_claim_info_with_ai env text = .ok ai) (hne : ai ≠ []) :
    extract_claim_info env text = .ok (mergeAi defaultClaimInfo ai)
    ∧ (mergeAi defaultClaimInfo ai).map Prod.fst = schemaKeys
    ∧ (∀ k, k ∉ schemaKeys → lookupA (mergeAi defaultClaimInfo ai) k = none)
    ∧ (∀ k, lookupA (mergeAi defaultClaimInfo ai) k = lookupA defaultClaimInfo k
        ∨ ∃ v, (k, v) ∈ ai ∧ v.truthy
            ∧ lookupA (mergeAi defaultClaimInfo ai) k = some v) := by
  have hemp : ai.isEmpty = false := by
    cases ai with
    | nil => exact absurd rfl hne
    | cons a l => rfl
  refine ⟨?_, mergeAi_map_fst ai defaultClaimInfo, ?_, ?_⟩
  · unfold extract_claim_info
    rw [ha, if_pos rfl, hok]
    simp [hemp]
  · intro k hk
    rw [lookupA_eq_none_iff, mergeAi_map_fst ai defaultClaimInfo]
    exact hk
  · intro k
    exact mergeAi_lookup ai defaultClaimInfo k

/-- Witness for `c6_merge_rule`: a concrete environment whose AI path yields
the truthy dict `[("claim_number", "CLM-1"), ("denial_reason", "")]`. -/
theorem c6_merge_rule_witness :
    extract_claim_info envAiDict "t"
      = .ok (mergeAi defaultClaimInfo
          [("claim_number", .vstr "CLM-1"), ("denial_reason", .vstr "")])
    ∧ (mergeAi defaultClaimInfo
        [("claim_number", .vstr "CLM-1"), ("denial_reason", .vstr "")]).map Prod.fst
      = schemaKeys
    ∧ (∀ k, k ∉ schemaKeys →
        lookupA (mergeAi defaultClaimInfo
          [("claim_number", .vstr "CLM-1"), ("denial_reason", .vstr "")]) k = none)
    ∧ (∀ k, lookupA (mergeAi defaultClaimInfo
          [("claim_number", .vstr "CLM-1"), ("denial_reason", .vstr "")]) k
        = lookupA defaultClaimInfo k
        ∨ ∃ v, (k, v) ∈ [(("claim_number" : String), PyVal.vstr "CLM-1"),
                         ("denial_reason", PyVal.vstr "")]
            ∧ v.truthy
            ∧ lookupA (mergeAi defaultClaimInfo
                [("claim_number", .vstr "CLM-1"), ("denial_reason", .vstr "")]) k
              = some v) :=
  c6_merge_rule envAiDict "t"
    [("claim_number", .vstr "CLM-1"), ("denial_reason", .vstr "")]
    rfl rfl (by simp)

/-! ## Denial-code analysis lemmas -/

theorem analyzeLoop_rates (data : KnowledgeData) :
    ∀ codes : List String,
      (analyzeLoop data codes).success_rates
        = (analyzeLoop data codes).codes_found.map (fun ci => ci.2.success_rate) := by
  intro codes
  induction codes with
  | nil => rfl
  | cons c rest ih =>
    rcases hl : lookup_denial_code data c with _ | info
    · simpa [analyzeLoop, hl] using ih
    · rcases hg : get_denial_category data c with _ | cat <;>
        simpa [analyzeLoop, hl, hg] using ih

theorem analyzeLoop_unknown_iff (data : KnowledgeData) :
    ∀ (codes : List String) (x : String),
      x ∈ (analyzeLoop data codes).codes_unknown
        ↔ x ∈ codes ∧ lookup_denial_code data x = none := by
  intro codes
  induction codes with
  | nil => intro x; simp [analyzeLoop]
  | cons c rest ih =>
    intro x
    rcases hl : lookup_denial_code data c with _ | info
    · rcases hg : get_denial_category data c with _ | cat <;>
        · simp only [analyzeLoop, hl, List.mem_cons]
          constructor
          · rintro (hx | hx)
            · exact ⟨Or.inl hx, hx ▸ hl⟩
            · exact ⟨Or.inr ((ih x).mp hx).1, ((ih x).mp hx).2⟩
          · rintro ⟨hx | hx, hlx⟩
            · exact Or.inl hx
            · exact Or.inr ((ih x).mpr ⟨hx, hlx⟩)
    · rcases hg : get_denial_category data c with _ | cat <;>
        · simp only [analyzeLoop, hl, hg, List.mem_cons]
          constructor
          · intro hx
            exact ⟨Or.inr ((ih x).mp hx).1, ((ih x).mp hx).2⟩
          · rintro ⟨hx | hx, hlx⟩
            · rw [hx] at hlx
              rw [hlx] at hl
              cases hl
            · exact (ih x).mpr ⟨hx, hlx⟩

theorem analyzeLoop_found_iff (data : KnowledgeData) :
    ∀ (codes : List String) (x : String),
      x ∈ (analyzeLoop data codes).codes_found.map Prod.fst
        ↔ x ∈ codes ∧ (lookup_denial_code data x).isSome := by
  intro codes
  induction codes with
  | nil => intro x; simp [analyzeLoop]
  | cons c rest ih =>
    intro x
    rcases hl : lookup_denial_code data c with _ | info
    · rcases hg : get_denial_category data c with _ | cat <;>
        · simp only [analyzeLoop, hl, List.mem_cons]
          constructor
          · intro hx
            exact ⟨Or.inr ((ih x).mp hx).1, ((ih x).mp hx).2⟩
          · rintro ⟨hx | hx, hlx⟩
            · rw [hx] at hlx
              rw [hl] at hlx
              cases hlx
            · exact (ih x).mpr ⟨hx, hlx⟩
    · rcases hg : get_denial_category data c with _ | cat <;>
        · simp only [analyzeLoop, hl, hg, List.map_cons, List.mem_cons]
          constructor
          · rintro (hx | hx)
            · exact ⟨Or.inl hx, by rw [hx, hl]; rfl⟩
            · exact ⟨Or.inr ((ih x).mp hx).1, ((ih x).mp hx).2⟩
          · rintro ⟨hx | hx, hlx⟩
            · exact Or.inl hx
            · exact Or.inr ((ih x).mpr ⟨hx, hlx⟩)

theorem analyze_fields (data : KnowledgeData) (codes : List String) :
    (analyze_denial_codes data codes).codes_found = (analyzeLoop data codes).codes_found
    ∧ (analyze_denial_codes data codes).codes_unknown
        = (analyzeLoop data codes).codes_unknown := ⟨rfl, rfl⟩

/-! ## Claim C5 — overall appeal likelihood -/

/-- C5: the overall likelihood is `Good` when some found code's success rate
is `High`, else `Moderate` when some is `Medium`, else `Challenging` when at
least one code was found, and `Unknown` when none was; in particular, on
`["PED-001","PA-001","UNKNOWN-999"]` over the spec's table (PED-001 `High`,
PA-001 `Medium`, UNKNOWN-999 absent) the likelihood is `Good` and the
unknown list is `["UNKNOWN-999"]`. -/
theorem c5_overall_likelihood :
    (∀ (data : KnowledgeData) (codes : List String),
      (analyze_denial_codes data codes).overall_appeal_likelihood =
        if (analyze_denial_codes data codes).codes_found.isEmpty then "Unknown"
        else if "High" ∈ (analyze_denial_codes data codes).codes_found.map
            (fun ci => ci.2.success_rate) then "Good"
        else if "Medium" ∈ (analyze_denial_codes data codes).codes_found.map
            (fun ci => ci.2.success_rate) then "Moderate"
        else "Challenging")
    ∧ (analyze_denial_codes specKnowledge
        ["PED-001", "PA-001", "UNKNOWN-999"]).overall_appeal_likelihood = "Good"
    ∧ (analyze_denial_codes specKnowledge
        ["PED-001", "PA-001", "UNKNOWN-999"]).codes_unknown = ["UNKNOWN-999"] := by
  refine ⟨?_, by decide, by decide⟩
  intro data codes
  rw [show (analyze_denial_codes data codes).overall_appeal_likelihood
      = (if (analyzeLoop data codes).success_rates.isEmpty then "Unknown"
         else if "High" ∈ (analyzeLoop data codes).success_rates then "Good"
         else if "Medium" ∈ (analyzeLoop data codes).success_rates then "Moderate"
         else "Challenging") from rfl,
    (analyze_fields data codes).1, analyzeLoop_rates data codes]
  cases hfl : (analyzeLoop data codes).codes_found with
  | nil => simp [hfl]
  | cons f fs => simp [hfl]

/-! ## Claim C7 — unknown codes do not abort -/

/-- C7: a code with no knowledge-store entry lands in `codes_unknown` and
never in `codes_found`, and the analysis still returns a result covering
every supplied code (each code ends up found or unknown). -/
theorem c7_unknown_codes (data : KnowledgeData) (codes : List String) (c : String)
    (hc : c ∈ codes) (hl : lookup_denial_code data c = none) :
    c ∈ (analyze_denial_codes data codes).codes_unknown
    ∧ c ∉ (analyze_denial_codes data codes).codes_found.map Prod.fst
    ∧ ∀ c' ∈ codes,
        c' ∈ (analyze_denial_codes data codes).codes_found.map Prod.fst
        ∨ c' ∈ (analyze_denial_codes data codes).codes_unknown := by
  rw [(analyze_fields data codes).1, (analyze_fields data codes).2]
  refine ⟨(analyzeLoop_unknown_iff data codes c).mpr ⟨hc, hl⟩, ?_, ?_⟩
  · intro hmem
    have hsome := ((analyzeLoop_found_iff data codes c).mp hmem).2
    rw [hl] at hsome
    cases hsome
  · intro c' hc'
    rcases hs : lookup_denial_code data c' with _ | info
    · exact Or.inr ((analyzeLoop_unknown_iff data codes c').mpr ⟨hc', hs⟩)
    · exact Or.inl ((analyzeLoop_found_iff data codes c').mpr ⟨hc', by rw [hs]; rfl⟩)

/-- Witness for `c7_unknown_codes` on the spec scenario's unknown code. -/
theorem c7_unknown_codes_witness :
    "UNKNOWN-999" ∈ (analyze_denial_codes specKnowledge
        ["PED-001", "PA-001", "UNKNOWN-999"]).codes_unknown
    ∧ "UNKNOWN-999" ∉ (analyze_denial_codes specKnowledge
        ["PED-001", "PA-001", "UNKNOWN-999"]).codes_found.map Prod.fst
    ∧ ∀ c' ∈ ["PED-001", "PA-001", "UNKNOWN-999"],
        c' ∈ (analyze_denial_codes specKnowledge
          ["PED-001", "PA-001", "UNKNOWN-999"]).codes_found.map Prod.fst
        ∨ c' ∈ (analyze_denial_codes specKnowledge
          ["PED-001", "PA-001", "UNKNOWN-999"]).codes_unknown :=
  c7_unknown_codes specKnowledge ["PED-001", "PA-001", "UNKNOWN-999"]
    "UNKNOWN-999" (by decide) (by decide)

/-! ## Letter/guidance split lemmas -/

theorem sepGo_spec (full : String) :
    ∀ ms : List String,
      (sepGo full ms = (full, "") ∧ ∀ m ∈ ms, splitOnce full m = none)
      ∨ ∃ l₁ m l₂ pre post,
          ms = l₁ ++ m :: l₂
          ∧ (∀ m' ∈ l₁, splitOnce full m' = none)
          ∧ splitOnce full m = some (pre, post)
          ∧ sepGo full ms = (pyStrip pre, m ++ post) := by
  intro ms
  induction ms with
  | nil => exact Or.inl ⟨rfl, by simp⟩
  | cons m rest ih =>
    rcases hs : splitOnce full m with _ | ⟨pre, post⟩
    · rcases ih with ⟨hgo, hnone⟩ | ⟨l₁, m', l₂, pre, post, hms, hl₁, hm', hgo⟩
      · refine Or.inl ⟨?_, ?_⟩
        · rw [show sepGo full (m :: rest) = sepGo full rest from by
            simp [sepGo, hs]]
          exact hgo
        · intro x hx
          rcases List.mem_cons.mp hx with hx | hx
          · rw [hx]; exact hs
          · exact hnone x hx
      · refine Or.inr ⟨m :: l₁, m', l₂, pre, post, by rw [hms]; rfl, ?_, hm', ?_⟩
        · intro x hx
          rcases List.mem_cons.mp hx with hx | hx
          · rw [hx]; exact hs
          · exact hl₁ x hx
        · rw [show sepGo full (m :: rest) = sepGo full rest from by
            simp [sepGo, hs]]
          exact hgo
    · exact Or.inr ⟨[], m, rest, pre, post, rfl, by simp, hs,
        by simp [sepGo, hs]⟩

/-! ## Claim C8 — letter/guidance split -/

/-- C8 counterexample: on `"Dear Sir \n**Next Steps:** do X"` the first
matching marker is `**Next Steps:**` with the text before it being
`"Dear Sir \n"`, yet the split returns the stripped `"Dear Sir"` as the
letter body — not the raw text before the marker as the claim states. -/
theorem c8_split_counterexample :
    splitOnce sampleArtifact "**Next Steps:**" = some ("Dear Sir \n", " do X")
    ∧ separate_letter_and_next_steps sampleArtifact
        = ("Dear Sir", "**Next Steps:** do X")
    ∧ separate_letter_and_next_steps sampleArtifact
        ≠ ("Dear Sir \n", "**Next Steps:** do X") := by
  refine ⟨by decide, by decide, by decide⟩

/-- C8 amended: the split searches the fixed marker list in order and splits
at the first matching marker — the text before it, stripped of surrounding
whitespace, becomes the letter body, and the marker plus the text after it
becomes the guidance; if no marker occurs, the entire text (unmodified) is
the letter body and the guidance is empty. -/
theorem c8_split_amended (full : String) :
    (separate_letter_and_next_steps full = (full, "")
      ∧ ∀ m ∈ next_steps_markers, splitOnce full m = none)
    ∨ ∃ l₁ m l₂ pre post,
        next_steps_markers = l₁ ++ m :: l₂
        ∧ (∀ m' ∈ l₁, splitOnce full m' = none)
        ∧ splitOnce full m = some (pre, post)
        ∧ separate_letter_and_next_steps full = (pyStrip pre, m ++ post) :=
  sepGo_spec full next_steps_markers

/-- Witness for `c8_split_amended` at the concrete sample artifact. -/
theorem c8_split_amended_witness :
    (separate_letter_and_next_steps sampleArtifact = (sampleArtifact, "")
      ∧ ∀ m ∈ next_steps_markers, splitOnce sampleArtifact m = none)
    ∨ ∃ l₁ m l₂ pre post,
        next_steps_markers = l₁ ++ m :: l₂
        ∧ (∀ m' ∈ l₁, splitOnce sampleArtifact m' = none)
        ∧ splitOnce sampleArtifact m = some (pre, post)
        ∧ separate_letter_and_next_steps sampleArtifact
            = (pyStrip pre, m ++ post) :=
  c8_split_amended sampleArtifact

/-! ## Case/whitespace normalization lemmas -/

theorem upperMap_lookup_fixed : ∀ p ∈ upperMap, upperMap.lookup p.2 = none := by
  decide

theorem upperMap_no_space :
    ∀ p ∈ upperMap, isPySpace p.1 = false ∧ isPySpace p.2 = false := by
  decide

theorem mem_of_lookup_eq_some {l : List (Char × Char)} {k b : Char}
    (h : l.lookup k = some b) : (k, b) ∈ l := by
  obtain ⟨l₁, l₂, rfl, -⟩ := List.lookup_eq_some_iff.mp h
  exact List.mem_append.mpr (Or.inr (List.mem_cons_self _ _))

theorem charUpper_idem (c : Char) : charUpper (charUpper c) = charUpper c := by
  rcases h : upperMap.lookup c with _ | u
  · simp [charUpper, h]
  · have hu : upperMap.lookup u = none :=
      upperMap_lookup_fixed (c, u) (mem_of_lookup_eq_some h)
    simp [charUpper, h, hu]

theorem isPySpace_charUpper (c : Char) : isPySpace (charUpper c) = isPySpace c := by
  rcases h : upperMap.lookup c with _ | u
  · simp [charUpper, h]
  · obtain ⟨h1, h2⟩ := upperMap_no_space (c, u) (mem_of_lookup_eq_some h)
    have h1' : isPySpace c = false := h1
    have h2' : isPySpace u = false := h2
    simp [charUpper, h, h1', h2']

theorem toList_mk (l : List Char) : (String.mk l).toList = l := rfl

theorem map_charUpper_idem (l : List Char) :
    (l.map charUpper).map charUpper = l.map charUpper := by
  rw [List.map_map]
  exact List.map_congr_left (fun a _ => charUpper_idem a)

theorem dropWhile_head_false {p : Char → Bool} {l : List Char} {a : Char}
    (h : (l.dropWhile p).head? = some a) : p a = false := by
  have hh := List.head?_dropWhile_not p l
  rw [h] at hh
  exact hh

theorem dropWhile_eq_self_of_head {p : Char → Bool} {l : List Char}
    (h : ∀ a, l.head? = some a → p a = false) : l.dropWhile p = l := by
  cases l with
  | nil => rfl
  | cons a t =>
    rw [List.dropWhile_cons_of_neg]
    rw [h a rfl]
    simp

theorem dropWhile_dropWhile (p : Char → Bool) (l : List Char) :
    (l.dropWhile p).dropWhile p = l.dropWhile p :=
  dropWhile_eq_self_of_head (fun _ h => dropWhile_head_false h)

theorem dropWhile_map_charUpper (l : List Char) :
    (l.map charUpper).dropWhile isPySpace = (l.dropWhile isPySpace).map charUpper := by
  rw [List.dropWhile_map]
  congr 1
  apply congrFun
  apply congrArg
  funext c
  exact isPySpace_charUpper c

theorem pyStripList_map_upper (l : List Char) :
    pyStripList (l.map charUpper) = (pyStripList l).map charUpper := by
  unfold pyStripList
  rw [dropWhile_map_charUpper, ← List.map_reverse, dropWhile_map_charUpper,
    ← List.map_reverse]

theorem pyStripList_reverse_head {l : List Char} {a : Char}
    (h : (((l.dropWhile isPySpace).reverse.dropWhile isPySpace).reverse).head? = some a) :
    isPySpace a = false := by
  rw [List.head?_reverse] at h
  rcases List.dropWhile_suffix (l := (l.dropWhile isPySpace).reverse)
      (p := isPySpace) with ⟨s, hs⟩
  have hlast : ((l.dropWhile isPySpace).reverse.dropWhile isPySpace).getLast?.or
      s.getLast? = (l.dropWhile isPySpace).head? := by
    rw [← List.getLast?_append, hs, List.getLast?_reverse]
  rw [h] at hlast
  exact dropWhile_head_false hlast.symm

theorem pyStripList_idem (l : List Char) :
    pyStripList (pyStripList l) = pyStripList l := by
  have hb : (pyStripList l).dropWhile isPySpace = pyStripList l :=
    dropWhile_eq_self_of_head (fun a ha => pyStripList_reverse_head ha)
  show ((((pyStripList l).dropWhile isPySpace).reverse).dropWhile isPySpace).reverse
      = pyStripList l
  rw [hb]
  unfold pyStripList
  rw [List.reverse_reverse, dropWhile_dropWhile]

theorem key_norm (s : String) :
    pyStrip (pyUpper (pyStrip (pyUpper s))) = pyStrip (pyUpper s) := by
  simp only [pyStrip, pyUpper, toList_mk]
  rw [← pyStripList_map_upper, map_charUpper_idem, pyStripList_idem]

/-! ## Claim C9 — lookup invariance under case and whitespace -/

/-- C9: `lookup_denial_code` and `get_denial_category` are invariant under
the case and surrounding whitespace of the supplied code: both agree on `c`
and on the uppercased, trimmed form of `c`, because the table is consulted
with the `upper().strip()` key. -/
theorem c9_lookup_case_invariance (data : KnowledgeData) (c : String) :
    lookup_denial_code data c = lookup_denial_code data (pyStrip (pyUpper c))
    ∧ get_denial_category data c = get_denial_category data (pyStrip (pyUpper c)) := by
  unfold lookup_denial_code get_denial_category
  rw [key_norm c]
  exact ⟨rfl, rfl⟩

/-! ## Claim C10 — legacy schema fallback on falsy tables -/

/-- C10: the legacy fallback fires whenever the current key's table is falsy
— present-but-empty included, not only absent: with `rejection_codes` (resp.
`rejection_categories`) bound to an empty table, lookups consult the legacy
`denial_codes` (resp. `denial_categories`) table; when both variants are
empty or absent every lookup returns `none`, and a (normalized-key) entry in
the effective table makes its lookup succeed. -/
theorem c10_legacy_fallback :
    (∀ (data : KnowledgeData) (code : String), data.rejection_codes = some [] →
      lookup_denial_code data code
        = lookupA (data.denial_codes.getD []) (pyStrip (pyUpper code)))
    ∧ (∀ (data : KnowledgeData) (code : String), data.rejection_categories = some [] →
      get_denial_category data code
        = findCategory (pyStrip (pyUpper code)) (data.denial_categories.getD []))
    ∧ (∀ (data : KnowledgeData) (code : String),
        (data.rejection_codes = none ∨ data.rejection_codes = some []) →
        (data.denial_codes = none ∨ data.denial_codes = some []) →
        lookup_denial_code data code = none)
    ∧ (∀ (data : KnowledgeData) (code : String),
        (data.rejection_categories = none ∨ data.rejection_categories = some []) →
        (data.denial_categories = none ∨ data.denial_categories = some []) →
        get_denial_category data code = none)
    ∧ (∀ (data : KnowledgeData) (k : String) (r : CodeRecord),
        (k, r) ∈ effectiveCodes data → pyStrip (pyUpper k) = k →
        (lookup_denial_code data k).isSome) := by
  refine ⟨?_, ?_, ?_, ?_, ?_⟩
  · intro data code h
    simp [lookup_denial_code, effectiveCodes, h]
  · intro data code h
    simp [get_denial_category, effectiveCategories, h]
  · intro data code h1 h2
    rcases h1 with h1 | h1 <;> rcases h2 with h2 | h2 <;>
      simp [lookup_denial_code, effectiveCodes, h1, h2, lookupA]
  · intro data code h1 h2
    rcases h1 with h1 | h1 <;> rcases h2 with h2 | h2 <;>
      simp [get_denial_category, effectiveCategories, h1, h2, findCategory]
  · intro data k r hm hk
    unfold lookup_denial_code
    rw [hk]
    exact lookupA_isSome_of_mem hm

/-- Witness for `c10_legacy_fallback` on the concrete legacy/empty tables. -/
theorem c10_legacy_fallback_witness :
    lookup_denial_code legacyKnowledge "x-1"
      = lookupA (legacyKnowledge.denial_codes.getD []) (pyStrip (pyUpper "x-1"))
    ∧ get_denial_category legacyKnowledge "x-1"
      = findCategory (pyStrip (pyUpper "x-1"))
          (legacyKnowledge.denial_categories.getD [])
    ∧ lookup_denial_code emptyKnowledge "x-1" = none
    ∧ get_denial_category emptyKnowledge "x-1" = none
    ∧ (lookup_denial_code legacyKnowledge "X-1").isSome :=
  ⟨c10_legacy_fallback.1 legacyKnowledge "x-1" rfl,
   c10_legacy_fallback.2.1 legacyKnowledge "x-1" rfl,
   c10_legacy_fallback.2.2.1 emptyKnowledge "x-1" (Or.inr rfl) (Or.inl rfl),
   c10_legacy_fallback.2.2.2.1 emptyKnowledge "x-1" (Or.inl rfl) (Or.inr rfl),
   c10_legacy_fallback.2.2.2.2 legacyKnowledge "X-1"
     { description := "Legacy code", category := "CatA", success_rate := "Low"
       common_causes := [], appeal_grounds := [] }
     (by decide) (by decide)⟩

end ClaimAssistant
